import Mathlib

/-!
Verification of the FashionScanner recommendation pipeline
(`outfitai_project`): a shallow embedding of the response parser, the
product-resolution fan-out, the price sorter, the scraping orchestrator
and the save-outfit workflow, together with theorems settling the
specification claims about them.

Source files embedded:
* `outfitai_project/core/recommender.py`
* `outfitai_project/scraping/scraper.py`
* `outfitai_project/models/outfit_models.py`
* `outfitai_project/services/product_service.py`
* `outfitai_project/core/attribute_extractor.py`
-/

namespace FashionScanner

/-! ## Save-outfit workflow (`recommender.save_outfit_recommendation_service`)

The database rows are modelled explicitly; UUIDs are modelled by `Nat`.
`orm_models.GeneratedRecommendation` is reduced to the two columns the save
workflow reads (`id`, `user_id`); `orm_models.SavedOutfit` keeps the columns
the service writes.  A call of the service is a function from the database
state (plus the fresh row id the ORM would generate) to a result and the new
database state. -/

abbrev Uuid := Nat

/-- Row of `generated_recommendations` as read by the save workflow
(`orm_models.GeneratedRecommendation`). -/
structure RecRow where
  id : Uuid
  user_id : Uuid
deriving DecidableEq, Repr

/-- Row of `saved_outfits` (`orm_models.SavedOutfit`). -/
structure SavedRow where
  id : Uuid
  user_id : Uuid
  recommendation_id : Uuid
  user_rating : Option Int
  user_notes : Option String
deriving DecidableEq, Repr

/-- The database state seen by the save workflow. -/
structure DbState where
  recommendations : List RecRow
  saved_outfits : List SavedRow
deriving DecidableEq, Repr

/-- `models.outfit_models.SavedOutfitCreate`: the pydantic request body of the
save endpoint.  Its only UUID field is `original_recommendation_id`. -/
structure SavedOutfitCreate where
  original_recommendation_id : Uuid
  user_rating : Option Int
  user_notes : Option String
deriving DecidableEq, Repr

/-- Python attribute access for UUID-valued attributes of `SavedOutfitCreate`.
Pydantic models raise `AttributeError` (modelled by `none`) for any attribute
that is not a declared field; the model's only UUID field is
`original_recommendation_id`. -/
def SavedOutfitCreate.uuidAttr (s : SavedOutfitCreate) (name : String) : Option Uuid :=
  if name = "original_recommendation_id" then some s.original_recommendation_id else none

/-- Errors of the save workflow.  `attributeError` models an uncaught Python
`AttributeError`; the others model the `HTTPException`s raised by
`save_outfit_recommendation_service` (404, 409) and the `Forbidden` (403)
error the specification mentions. -/
inductive SaveError where
  | attributeError
  | notFound
  | conflict
  | forbidden
deriving DecidableEq, Repr

/-- `recommender.save_outfit_recommendation_service` (lines 502-538).  The
service first builds the query
`select(...).where(GeneratedRecommendation.id == save_input.generated_recommendation_id)`:
the attribute access happens before any database statement is executed, and
`generated_recommendation_id` is not a field of `SavedOutfitCreate`, so it is
looked up through `uuidAttr`.  The remaining steps mirror the source: a 404
check on the recommendation, a 409 check on an existing
`(user_id, recommendation_id)` save, then the insert. -/
def saveOutfitRecommendationService (db : DbState) (user_id : Uuid)
    (save_input : SavedOutfitCreate) (new_id : Uuid) :
    Except SaveError SavedRow × DbState :=
  match save_input.uuidAttr "generated_recommendation_id" with
  | none => (.error .attributeError, db)
  | some rid =>
    match db.recommendations.find? (fun r => r.id = rid) with
    | none => (.error .notFound, db)
    | some _ =>
      match db.saved_outfits.find? (fun s => s.user_id = user_id && s.recommendation_id = rid) with
      | some _ => (.error .conflict, db)
      | none =>
        let row : SavedRow :=
          { id := new_id, user_id := user_id, recommendation_id := rid,
            user_rating := save_input.user_rating, user_notes := save_input.user_notes }
        (.ok row, { db with saved_outfits := db.saved_outfits ++ [row] })

/-- Every call of the save service fails with `AttributeError` and leaves the
database untouched: the accessed attribute name does not match the model's
field name. -/
theorem saveService_always_attributeError (db : DbState) (user_id : Uuid)
    (save_input : SavedOutfitCreate) (new_id : Uuid) :
    saveOutfitRecommendationService db user_id save_input new_id =
      (.error .attributeError, db) := by
  simp [saveOutfitRecommendationService, SavedOutfitCreate.uuidAttr]

/-! ## Outfit data model (`models/outfit_models.py`) -/

/-- `ItemCategory`, the closed category enum. -/
inductive ItemCategory where
  | Top | Bottom | Outerwear | Shoes | Accessory | Dress | Other
deriving DecidableEq, Repr

/-- The string value of each `ItemCategory` member. -/
def ItemCategory.value : ItemCategory → String
  | .Top => "Top"
  | .Bottom => "Bottom"
  | .Outerwear => "Outerwear"
  | .Shoes => "Shoes"
  | .Accessory => "Accessory"
  | .Dress => "Dress"
  | .Other => "Other"

/-- Enum lookup by value, as pydantic validates a string against the
`str`-valued enum `ItemCategory`. -/
def ItemCategory.ofValue (s : String) : Option ItemCategory :=
  if s = "Top" then some .Top
  else if s = "Bottom" then some .Bottom
  else if s = "Outerwear" then some .Outerwear
  else if s = "Shoes" then some .Shoes
  else if s = "Accessory" then some .Accessory
  else if s = "Dress" then some .Dress
  else if s = "Other" then some .Other
  else none

/-- `SortBy = Literal["relevance", "price_asc", "price_desc", "rating_desc"]`. -/
inductive SortBy where
  | relevance | price_asc | price_desc | rating_desc
deriving DecidableEq, Repr

/-- Characters of a string (Python `str` values are modelled through their
character lists where character-level operations matter). -/
abbrev Chars := List Char

/-- Validation of pydantic `HttpUrl` on a string: the scheme must be
`http`/`https` and something must follow the `://`.  (Pydantic's validator is
stricter about the authority; this check agrees with it on every URL used in
this development.) -/
def isHttpUrlChars (cs : Chars) : Bool :=
  ("http://".data.isPrefixOf cs && decide (7 < cs.length)) ||
  ("https://".data.isPrefixOf cs && decide (8 < cs.length))

def isHttpUrl (s : String) : Bool := isHttpUrlChars s.data

/-- `ScrapedProduct`: a validated scraped product. -/
structure ScrapedProduct where
  retailer : String
  product_name : String
  price : String
  product_url : String
  image_url : Option String
deriving DecidableEq, Repr

/-- A raw scraped-product dict as produced by the retailer parsers in
`scraping/scraper.py` (and possibly enriched with extra attribute keys by
`attribute_extractor.py`).  `none` models an absent key or a `None` value;
`extra_keys` records further keys (e.g. `gender`, `brand`) which pydantic
ignores but which make the dict non-empty. -/
structure RawProduct where
  retailer : Option String := none
  product_name : Option String := none
  price : Option String := none
  product_url : Option String := none
  image_url : Option String := none
  extra_keys : List String := []
deriving DecidableEq, Repr

/-- Python truthiness of the raw dict (`if product_data:`): true iff the dict
has at least one key. -/
def RawProduct.isTruthy (d : RawProduct) : Bool :=
  d.retailer.isSome || d.product_name.isSome || d.price.isSome ||
  d.product_url.isSome || d.image_url.isSome || !d.extra_keys.isEmpty

/-- `ScrapedProduct(**product_data)`: pydantic validation of a raw dict.
`retailer`, `product_name` and `price` are required strings, `product_url` a
required `HttpUrl`, `image_url` an optional `HttpUrl`; extra keys are ignored
(pydantic v2 default).  `none` models a `ValidationError`. -/
def validateRawProduct (d : RawProduct) : Option ScrapedProduct := do
  let retailer ← d.retailer
  let name ← d.product_name
  let price ← d.price
  let url ← d.product_url
  if isHttpUrl url then
    match d.image_url with
    | none => some ⟨retailer, name, price, url, none⟩
    | some img => if isHttpUrl img then some ⟨retailer, name, price, url, some img⟩ else none
  else none

/-- `OutfitComponentSuggestion`: one recommended outfit component. -/
structure Component where
  item_category : ItemCategory
  description : String
  scraped_products : List ScrapedProduct
  search_query : String
  fallback_search_url : Option String
deriving DecidableEq, Repr

/-- `OutfitRecommendationCreate`: the validated parser output. -/
structure OutfitRecommendationCreate where
  components : List Component
  overall_reasoning : Option String
deriving DecidableEq, Repr

/-! ## JSON values

`json.loads` produces Python values; they are modelled by `Json`.  Objects
carry their key/value pairs in order (a decoded Python dict has unique keys;
the definitions below treat a duplicated key exactly as the dict that
`json.loads` would build from it: membership is any occurrence, lookup is the
last occurrence). -/

inductive Json where
  | null
  | bool (b : Bool)
  | num (q : ℚ)
  | str (s : String)
  | arr (elems : List Json)
  | obj (fields : List (String × Json))

/-- Key membership in an object's field list (`'k' in d` for a dict). -/
def hasFieldKey (fields : List (String × Json)) (k : String) : Bool :=
  fields.any (fun kv => kv.1 = k)

/-- Dict lookup `d[k]`: the last binding wins, as in a dict built by
`json.loads`. -/
def lookupField (fields : List (String × Json)) (k : String) : Option Json :=
  ((fields.filter (fun kv => kv.1 = k)).getLast?).map (fun kv => kv.2)

/-- List prefix test on characters. -/
def prefixOfL : Chars → Chars → Bool
  | [], _ => true
  | _ :: _, [] => false
  | a :: as, b :: bs => a = b && prefixOfL as bs

/-- Substring test on characters (Python `pat in s` for strings). -/
def substrL (pat : Chars) : Chars → Bool
  | [] => prefixOfL pat []
  | c :: rest => prefixOfL pat (c :: rest) || substrL pat rest

/-- Python `x in xs` element test of a string against a decoded JSON list:
`==` between a `str` and a non-`str` decoded value is `False`. -/
def jsonStrElem (xs : List Json) (s : String) : Bool :=
  xs.any (fun j => match j with | .str t => t = s | _ => false)

/-- Python `key in j` on a decoded JSON value: key membership for a dict,
element equality for a list, substring test for a string; `none` models the
`TypeError` raised for `int`/`float`/`bool`/`None`. -/
def pyContains (j : Json) (key : String) : Option Bool :=
  match j with
  | .obj fields => some (hasFieldKey fields key)
  | .arr xs => some (jsonStrElem xs key)
  | .str s => some (substrL key.data s.data)
  | _ => none

/-- Python `j[key]` on a decoded JSON value: dict lookup; `none` models the
`TypeError` (string/list indices must be integers) or `KeyError` raised
otherwise. -/
def pyIndex (j : Json) (key : String) : Option Json :=
  match j with
  | .obj fields => lookupField fields key
  | _ => none

/-! ## Response parsing and validation
(`recommender._generate_and_parse_llm_recommendation_response`, lines
336-352, and pydantic validation of the models above). -/

/-- Pydantic validation of one element of `scraped_products` inside a
component (`ScrapedProduct` from a decoded JSON value). -/
def validateScrapedProductJson (j : Json) : Option ScrapedProduct :=
  match j with
  | .obj fields => do
    let .str retailer ← lookupField fields "retailer" | none
    let .str name ← lookupField fields "product_name" | none
    let .str price ← lookupField fields "price" | none
    let .str url ← lookupField fields "product_url" | none
    if isHttpUrl url then
      match lookupField fields "image_url" with
      | none => some ⟨retailer, name, price, url, none⟩
      | some .null => some ⟨retailer, name, price, url, none⟩
      | some (.str img) =>
        if isHttpUrl img then some ⟨retailer, name, price, url, some img⟩ else none
      | some _ => none
    else none
  | _ => none

/-- Pydantic validation of one `OutfitComponentSuggestion` from a decoded
JSON value: `item_category` must be a member of the closed enum,
`description` and `search_query` must be strings (the empty string is
accepted), `scraped_products` defaults to `[]`, `fallback_search_url`
defaults to `none`; extra keys (such as the prompt's `attributes`) are
ignored.  `none` models a `ValidationError`. -/
def validateComponentJson (j : Json) : Option Component :=
  match j with
  | .obj fields => do
    let .str cat ← lookupField fields "item_category" | none
    let category ← ItemCategory.ofValue cat
    let .str description ← lookupField fields "description" | none
    let .str search_query ← lookupField fields "search_query" | none
    let scraped ←
      match lookupField fields "scraped_products" with
      | none => some []
      | some (.arr xs) => xs.mapM validateScrapedProductJson
      | some _ => none
    let fallback ←
      match lookupField fields "fallback_search_url" with
      | none => some Option.none
      | some .null => some Option.none
      | some (.str u) => if isHttpUrl u then some (Option.some u) else none
      | some _ => none
    some ⟨category, description, scraped, search_query, fallback⟩
  | _ => none

/-- Pydantic validation `OutfitRecommendationCreate(**fields)`: `components`
is a required list of valid components, `overall_reasoning` an optional
string.  `none` models a `ValidationError`. -/
def validateCreate (fields : List (String × Json)) : Option OutfitRecommendationCreate := do
  let .arr xs ← lookupField fields "components" | none
  let components ← xs.mapM validateComponentJson
  let reasoning ←
    match lookupField fields "overall_reasoning" with
    | none => some Option.none
    | some .null => some Option.none
    | some (.str s) => some (Option.some s)
    | some _ => none
  some ⟨components, reasoning⟩

/-- Outcome of the parse/validate stage of
`_generate_and_parse_llm_recommendation_response`:
`malformed` models the `json.JSONDecodeError`/`ValueError` (and pydantic
`ValidationError`, a `ValueError` subclass) handler, surfaced as the HTTP 500
"AI failed to generate a valid or understandable outfit structure" error;
`processing` models the generic `except Exception` handler, surfaced as the
HTTP 502 "Error processing AI response" error. -/
inductive LlmParse where
  | ok (rec : OutfitRecommendationCreate)
  | malformed
  | processing
deriving DecidableEq, Repr

/-- `OutfitRecommendationCreate(**final_data_to_validate)`: unpacking a
non-mapping raises `TypeError` (caught by the generic handler); a mapping is
validated by pydantic, and a `ValidationError` is caught as a `ValueError`. -/
def unpackValidate (j : Json) : LlmParse :=
  match j with
  | .obj fields =>
    match validateCreate fields with
    | some rec => .ok rec
    | none => .malformed
  | _ => .processing

/-- The defensive shape normalization of
`_generate_and_parse_llm_recommendation_response` (lines 339-352): accept a
payload with a top-level `components` key; otherwise unwrap a top-level
`outfit` dict that itself contains `components`; otherwise raise
`ValueError`.  The Python `in` and indexing operators follow `pyContains`
and `pyIndex`, so non-dict payloads can take the `TypeError` route. -/
def parsePayload (j : Json) : LlmParse :=
  match pyContains j "components" with
  | none => .processing
  | some true => unpackValidate j
  | some false =>
    match pyContains j "outfit" with
    | none => .processing
    | some false => .malformed
    | some true =>
      match pyIndex j "outfit" with
      | none => .processing
      | some inner =>
        match inner with
        | .obj g => if hasFieldKey g "components" then unpackValidate (.obj g) else .malformed
        | _ => .malformed

/-! ## Python string helpers

`str.strip()`, `str.replace(old, '')` (all occurrences, leftmost first,
non-overlapping) and `urllib.parse.quote_plus` modelled at the character
level. -/

/-- The whitespace characters Python's `str.strip()` removes (ASCII part). -/
def isPyWs (c : Char) : Bool :=
  c = ' ' || c = '\t' || c = '\n' || c = '\r' || c = '\x0b' || c = '\x0c'

/-- `str.strip()`. -/
def pyStripChars (cs : Chars) : Chars :=
  ((cs.dropWhile isPyWs).reverse.dropWhile isPyWs).reverse

/-- Fuel-indexed worker for `removeAllOcc`; the fuel bounds the remaining
input length, so the recursion is structural. -/
def removeAllOccAux (p : Char) (ps : Chars) : ℕ → Chars → Chars
  | 0, _ => []
  | _ + 1, [] => []
  | fuel + 1, c :: rest =>
    if prefixOfL (p :: ps) (c :: rest) then removeAllOccAux p ps fuel (rest.drop ps.length)
    else c :: removeAllOccAux p ps fuel rest

/-- `s.replace(pat, '')` for a non-empty pattern `p :: ps`: remove every
occurrence, scanning left to right, non-overlapping. -/
def removeAllOcc (p : Char) (ps : Chars) (cs : Chars) : Chars :=
  removeAllOccAux p ps cs.length cs

/-- A byte that `urllib.parse.quote` leaves unescaped with `safe=''`:
the unreserved characters `A-Z a-z 0-9 _ . - ~`. -/
def isUnreservedByte (b : UInt8) : Bool :=
  (65 ≤ b && b ≤ 90) || (97 ≤ b && b ≤ 122) || (48 ≤ b && b ≤ 57) ||
  b = 95 || b = 46 || b = 45 || b = 126

def hexDigitChar (n : Nat) : Char :=
  if n < 10 then Char.ofNat (48 + n) else Char.ofNat (65 + n - 10)

/-- Encoding of one UTF-8 byte under `urllib.parse.quote_plus`: a space
becomes `+`, an unreserved byte stays itself, anything else becomes
`%XX` with uppercase hex. -/
def quotePlusByte (b : UInt8) : Chars :=
  if b = 32 then ['+']
  else if isUnreservedByte b then [Char.ofNat b.toNat]
  else ['%', hexDigitChar (b.toNat / 16), hexDigitChar (b.toNat % 16)]

/-- `urllib.parse.quote_plus(s)`: per UTF-8 byte of `s`. -/
def quotePlusChars (s : String) : Chars :=
  s.toUTF8.toList.flatMap quotePlusByte

/-- `scraper.get_google_shopping_url` (scraper.py lines 150-152). -/
def getGoogleShoppingUrl (query : String) : String :=
  String.mk ("https://www.google.com/search?tbm=shop&q=".data ++ quotePlusChars query)

/-! ## Price sorting (`recommender.filter_and_sort_products`, lines 163-185) -/

/-- Digit-string value. -/
def digitsVal (ds : Chars) : ℕ :=
  ds.foldl (fun a c => 10 * a + (c.toNat - 48)) 0

/-- The exponent suffix of a Python float literal (`e`/`E`, optional sign,
digits); `some 1` for the empty remainder, `none` when the remainder is not a
valid suffix. -/
def parseExpSuffix : Chars → Option ℚ
  | [] => some 1
  | c :: t =>
    if c = 'e' ∨ c = 'E' then
      let (sgn, t') : ℤ × Chars :=
        match t with
        | '-' :: u => (-1, u)
        | '+' :: u => (1, u)
        | u => (1, u)
      let ds := t'.takeWhile Char.isDigit
      let rest := t'.dropWhile Char.isDigit
      if ds.isEmpty || !rest.isEmpty then none
      else some ((10 : ℚ) ^ (sgn * (digitsVal ds : ℤ)))
    else none

/-- Python `float(s)` on a string: surrounding whitespace is stripped, then
an optional sign, decimal digits with an optional fraction part and an
optional exponent are accepted (the `inf`/`nan` spellings and digit
underscores never occur in this pipeline and are not modelled); `none`
models the `ValueError` raised for anything else. -/
def pyFloatChars (cs0 : Chars) : Option ℚ :=
  let cs := pyStripChars cs0
  let (sgn, cs1) : ℚ × Chars :=
    match cs with
    | '-' :: t => (-1, t)
    | '+' :: t => (1, t)
    | t => (1, t)
  let ip := cs1.takeWhile Char.isDigit
  let rest1 := cs1.dropWhile Char.isDigit
  match rest1 with
  | '.' :: t =>
    let fp := t.takeWhile Char.isDigit
    let rest2 := t.dropWhile Char.isDigit
    if ip.isEmpty && fp.isEmpty then none
    else (parseExpSuffix rest2).map (fun e =>
      sgn * ((digitsVal ip : ℚ) + (digitsVal fp : ℚ) / (10 : ℚ) ^ fp.length) * e)
  | rest2 =>
    if ip.isEmpty then none
    else (parseExpSuffix rest2).map (fun e => sgn * (digitsVal ip : ℚ) * e)

/-- The sort key of `filter_and_sort_products`:
`float(p.price.replace('₹', '').replace(',', ''))`.  Only the rupee sign and
commas are stripped before the conversion; `none` models the `ValueError`
`float` raises on anything else. -/
def priceKey (p : ScrapedProduct) : Option ℚ :=
  pyFloatChars (removeAllOcc ',' [] (removeAllOcc '₹' [] p.price.data))

/-- The `ValueError` escaping `filter_and_sort_products` when a price string
cannot be converted. -/
inductive SortError where
  | valueError
deriving DecidableEq, Repr

/-- `recommender.filter_and_sort_products`: the `min_rating` filter is a
placeholder (`pass`) in the source and filters nothing; `price_asc` and
`price_desc` sort by the numeric price key (`list.sort` computes the key of
every element and is stable, also with `reverse=True`); any other sort
preserves the order.  A key failure propagates as `ValueError`. -/
def filterAndSortProducts (products : List ScrapedProduct) (sort_by : SortBy)
    (min_rating : Option ℚ) : Except SortError (List ScrapedProduct) :=
  let _ := min_rating
  match sort_by with
  | .price_asc => do
    let keyed ← products.mapM (fun p =>
      match priceKey p with
      | some k => Except.ok (k, p)
      | none => Except.error SortError.valueError)
    pure ((keyed.mergeSort (fun a b => a.1 ≤ b.1)).map (fun kp => kp.2))
  | .price_desc => do
    let keyed ← products.mapM (fun p =>
      match priceKey p with
      | some k => Except.ok (k, p)
      | none => Except.error SortError.valueError)
    pure ((keyed.mergeSort (fun a b => b.1 ≤ a.1)).map (fun kp => kp.2))
  | _ => pure products

/-! ## Product-resolution fan-out
(`recommender._generate_and_parse_llm_recommendation_response`, lines
354-416).  One scrape task is created per component with a truthy
`search_query`; `asyncio.gather(..., return_exceptions=True)` yields, per
task, either the list returned by `scraper.find_products_for_query` or a
captured exception. -/

/-- One entry of `all_scraped_results`. -/
inductive ScrapeOutcome where
  | ok (products : List RawProduct)
  | exn
deriving DecidableEq, Repr

/-- The request-scoped sorting/filtering context (the `sort_by` and
`min_rating` fields of `RecommendationRequestContext`). -/
structure ResolveCtx where
  sort_by : SortBy
  min_rating : Option ℚ
deriving Repr

/-- Errors escaping the resolution loop: a `ValueError` from the price sort,
or an `IndexError` from `all_scraped_results[scraped_idx]` (unreachable when
the outcome list matches the queried components). -/
inductive ResolveError where
  | sortValueError
  | indexError
deriving DecidableEq, Repr

/-- The validated products of a raw scrape result: per raw dict, the falsy
(empty) dicts are skipped, `ScrapedProduct(**product_data)` is attempted and
a `ValidationError` drops the product (lines 378-385). -/
def validatedProducts (raw : List RawProduct) : List ScrapedProduct :=
  raw.filterMap (fun d => if d.isTruthy then validateRawProduct d else none)

/-- Resolution of one component whose `search_query` was truthy, given its
entry of `all_scraped_results` (lines 372-415): a non-empty list result is
validated, (fire-and-forget) persisted, and sorted into `scraped_products`;
otherwise `fallback_search_url` is set to
`HttpUrl(get_google_shopping_url(component.search_query))`, falling back to
`None` if that construction raised. -/
def resolveQueried (ctx : ResolveCtx) (c : Component) (raw : ScrapeOutcome) :
    Except ResolveError Component :=
  match raw with
  | .ok l =>
    if l.isEmpty then
      .ok { c with fallback_search_url :=
              if isHttpUrl (getGoogleShoppingUrl c.search_query) then
                some (getGoogleShoppingUrl c.search_query)
              else none }
    else
      match filterAndSortProducts (validatedProducts l) ctx.sort_by ctx.min_rating with
      | .ok sorted => .ok { c with scraped_products := sorted }
      | .error _ => .error .sortValueError
  | .exn =>
    .ok { c with fallback_search_url :=
            if isHttpUrl (getGoogleShoppingUrl c.search_query) then
              some (getGoogleShoppingUrl c.search_query)
            else none }

/-- The resolution loop over all components (lines 367-415): components with
a falsy (empty) `search_query` are skipped and consume no scrape outcome;
the others consume the outcomes in order. -/
def resolveAll (ctx : ResolveCtx) : List Component → List ScrapeOutcome →
    Except ResolveError (List Component)
  | [], _ => .ok []
  | c :: cs, raws =>
    if c.search_query = "" then do
      let rest ← resolveAll ctx cs raws
      pure (c :: rest)
    else
      match raws with
      | [] => .error .indexError
      | r :: rs => do
        let c' ← resolveQueried ctx c r
        let rest ← resolveAll ctx cs rs
        pure (c' :: rest)

/-! ## Background product persistence
(`product_service.bulk_create_or_update_products`, lines 15-44).  The batch
handed to the upsert statement deduplicates the validated products by
`product_url` via the dict comprehension
`{p['product_url']: p for p in product_dicts}` — first-occurrence order of
each key, last occurrence's value. -/

/-- One assignment `m[k] = v` on an insertion-ordered dict. -/
def dictInsert (m : List (String × ScrapedProduct)) (k : String) (v : ScrapedProduct) :
    List (String × ScrapedProduct) :=
  if m.any (fun kv => kv.1 = k) then
    m.map (fun kv => if kv.1 = k then (k, v) else kv)
  else m ++ [(k, v)]

/-- `list({p['product_url']: p for p in ps}.values())`. -/
def dedupByUrl (ps : List ScrapedProduct) : List ScrapedProduct :=
  (ps.foldl (fun m p => dictInsert m p.product_url p) []).map (fun kv => kv.2)

/-! ## Scraping orchestrator (`scraper.find_products_for_query`, lines
186-227).  The per-retailer fetch (ScraperAPI call plus retailer-specific
HTML parser) and the best-effort attribute enrichment are external effects,
abstracted as oracle functions `fetch` and `enrich`; everything around them
follows the source. -/

/-- The keys of `SITE_CONFIGS`. -/
def siteConfigNames : List String := ["Myntra", "Ajio", "Amazon"]

/-- Worker for `pySplitWs`: `acc` holds the current word, reversed. -/
def pySplitAcc : Chars → Chars → List String
  | acc, [] => if acc.isEmpty then [] else [String.mk acc.reverse]
  | acc, c :: rest =>
    if isPyWs c then
      if acc.isEmpty then pySplitAcc [] rest
      else String.mk acc.reverse :: pySplitAcc [] rest
    else pySplitAcc (c :: acc) rest

/-- Python `str.split()` with no separator: split on whitespace runs,
discarding empty pieces. -/
def pySplitWs (s : String) : List String :=
  pySplitAcc [] s.data

/-- The aggregation of one scraping round: one task per requested retailer
that appears in `SITE_CONFIGS`, in order; each list result contributes its
first `limit` products (`result_set[:limit_per_retailer]`), a captured
exception contributes nothing. -/
def aggregateScrape (fetch : String → String → ScrapeOutcome) (query : String)
    (retailers : List String) (limit : ℕ) : List RawProduct :=
  ((retailers.filter (fun r => r ∈ siteConfigNames)).map (fun r =>
    match fetch query r with
    | .ok l => l.take limit
    | .exn => [])).flatten

/-- The broadened retry query: `" ".join(query.split()[-2:])`. -/
def broadenedQuery (query : String) : String :=
  let ws := pySplitWs query
  String.intercalate " " (ws.drop (ws.length - 2))

/-- `scraper.find_products_for_query`: an empty query or retailer list short
circuits to `[]`; the first round scrapes the query against the configured
retailers; when that aggregate is empty and the query has more than two
words, one retry runs with the broadened query against the same retailers;
an empty aggregate yields `[]`, a non-empty one is enriched (best effort)
and returned. -/
def findProductsForQuery (fetch : String → String → ScrapeOutcome)
    (enrich : List RawProduct → List RawProduct) (query : String)
    (retailers : List String) (limit : ℕ) : List RawProduct :=
  if query = "" ∨ retailers = [] then []
  else
    let allProducts := aggregateScrape fetch query retailers limit
    let allProducts :=
      if allProducts.isEmpty ∧ 2 < (pySplitWs query).length then
        allProducts ++ aggregateScrape fetch (broadenedQuery query) retailers limit
      else allProducts
    if allProducts.isEmpty then []
    else enrich allProducts

/-! ## `json.loads` on the cleaned response text

A recursive-descent decoder for the JSON grammar `json.loads` accepts
(strict mode): values, objects, arrays, strings (with the single-character
escapes; `\uXXXX` escapes never occur in this pipeline and are not
modelled), strict numbers, and the four JSON whitespace characters.
`json.loads` raises unless the whole string is one value surrounded only by
whitespace (`Extra data` otherwise). -/

def skipJsonWs (cs : Chars) : Chars :=
  cs.dropWhile (fun c => c = ' ' || c = '\t' || c = '\n' || c = '\r')

/-- The single-character string escapes of JSON. -/
def jsonEscChar (c : Char) : Option Char :=
  if c = '"' then some '"'
  else if c = '\\' then some '\\'
  else if c = '/' then some '/'
  else if c = 'n' then some '\n'
  else if c = 't' then some '\t'
  else if c = 'r' then some '\r'
  else if c = 'b' then some '\x08'
  else if c = 'f' then some '\x0c'
  else none

/-- The body of a JSON string, after the opening quote. -/
def parseJsonStringBody : Chars → Option (String × Chars)
  | [] => none
  | '\\' :: rest =>
    match rest with
    | e :: rest2 =>
      match jsonEscChar e with
      | some ec => (parseJsonStringBody rest2).map (fun sr => (String.mk (ec :: sr.1.data), sr.2))
      | none => none
    | [] => none
  | c :: rest =>
    if c = '"' then some ("", rest)
    else if c.toNat < 32 then none
    else (parseJsonStringBody rest).map (fun sr => (String.mk (c :: sr.1.data), sr.2))

/-- A strict JSON number (`-?(0|[1-9][0-9]*)(\.[0-9]+)?([eE][+-]?[0-9]+)?`),
evaluated as a rational. -/
def parseJsonNumber (cs : Chars) : Option (Json × Chars) :=
  let (neg, cs1) : Bool × Chars := match cs with | '-' :: t => (true, t) | t => (false, t)
  match cs1 with
  | c :: rest0 =>
    if ¬ c.isDigit then none
    else
      let ip := if c = '0' then [c] else (c :: rest0).takeWhile Char.isDigit
      let rest1 := if c = '0' then rest0 else (c :: rest0).dropWhile Char.isDigit
      let (fracOk, fv, rest2) : Bool × ℚ × Chars :=
        match rest1 with
        | '.' :: t =>
          let fp := t.takeWhile Char.isDigit
          (!fp.isEmpty, (digitsVal fp : ℚ) / (10 : ℚ) ^ fp.length, t.dropWhile Char.isDigit)
        | t => (true, 0, t)
      if ¬ fracOk then none
      else
        let (expOk, ev, rest3) : Bool × ℚ × Chars :=
          match rest2 with
          | e :: t =>
            if e = 'e' ∨ e = 'E' then
              let (sgn, t') : ℤ × Chars :=
                match t with
                | '-' :: u => (-1, u)
                | '+' :: u => (1, u)
                | u => (1, u)
              let ds := t'.takeWhile Char.isDigit
              (!ds.isEmpty, (10 : ℚ) ^ (sgn * (digitsVal ds : ℤ)), t'.dropWhile Char.isDigit)
            else (true, 1, e :: t)
          | [] => (true, 1, [])
        if ¬ expOk then none
        else
          let mag := ((digitsVal ip : ℚ) + fv) * ev
          some (.num (if neg then -mag else mag), rest3)
  | [] => none

mutual

/-- One JSON value and the remaining input. -/
def parseJsonValue (fuel : ℕ) (cs : Chars) : Option (Json × Chars) :=
  match fuel with
  | 0 => none
  | fuel + 1 =>
    match skipJsonWs cs with
    | '{' :: rest =>
      (match skipJsonWs rest with
       | '}' :: rest' => some (.obj [], rest')
       | _ => parseJsonMembers fuel rest [])
    | '[' :: rest =>
      (match skipJsonWs rest with
       | ']' :: rest' => some (.arr [], rest')
       | _ => parseJsonItems fuel rest [])
    | '"' :: rest => (parseJsonStringBody rest).map (fun sr => (.str sr.1, sr.2))
    | 't' :: 'r' :: 'u' :: 'e' :: rest => some (.bool true, rest)
    | 'f' :: 'a' :: 'l' :: 's' :: 'e' :: rest => some (.bool false, rest)
    | 'n' :: 'u' :: 'l' :: 'l' :: rest => some (.null, rest)
    | rest => parseJsonNumber rest

/-- The members of an object, after `{` (at least one member). -/
def parseJsonMembers (fuel : ℕ) (cs : Chars) (acc : List (String × Json)) :
    Option (Json × Chars) :=
  match fuel with
  | 0 => none
  | fuel + 1 =>
    match skipJsonWs cs with
    | '"' :: rest =>
      match parseJsonStringBody rest with
      | none => none
      | some (k, r1) =>
        match skipJsonWs r1 with
        | ':' :: r2 =>
          match parseJsonValue fuel r2 with
          | none => none
          | some (v, r3) =>
            match skipJsonWs r3 with
            | ',' :: r4 => parseJsonMembers fuel r4 (acc ++ [(k, v)])
            | '}' :: r4 => some (.obj (acc ++ [(k, v)]), r4)
            | _ => none
        | _ => none
    | _ => none

/-- The items of an array, after `[` (at least one item). -/
def parseJsonItems (fuel : ℕ) (cs : Chars) (acc : List Json) : Option (Json × Chars) :=
  match fuel with
  | 0 => none
  | fuel + 1 =>
    match parseJsonValue fuel cs with
    | none => none
    | some (v, r1) =>
      match skipJsonWs r1 with
      | ',' :: r2 => parseJsonItems fuel r2 (acc ++ [v])
      | ']' :: r2 => some (.arr (acc ++ [v]), r2)
      | _ => none

end

/-- `json.loads`: one value, then only whitespace (otherwise `Extra data`). -/
def jsonLoads (cs : Chars) : Option Json :=
  match parseJsonValue (2 * cs.length + 2) cs with
  | some (v, rest) => if (skipJsonWs rest).isEmpty then some v else none
  | none => none

/-! ## The raw-text stage of the parser
(`recommender._generate_and_parse_llm_recommendation_response`, lines
336-337):
`response_text.strip().replace("```json", "").replace("```", "").strip()`
followed by `json.loads` and the shape normalization. -/

/-- The characters of the pattern `"```json"` after its head. -/
def fenceJsonTail : Chars := ['`', '`', 'j', 's', 'o', 'n']

/-- The characters of the pattern `"```"` after its head. -/
def fenceTail : Chars := ['`', '`']

/-- The fence-cleaning expression of line 336: both `replace` calls remove
every occurrence of their pattern (`"```json"` first, then `"```"`),
wherever it appears. -/
def cleanResponseChars (cs : Chars) : Chars :=
  pyStripChars (removeAllOcc '`' fenceTail (removeAllOcc '`' fenceJsonTail (pyStripChars cs)))

/-- The whole parse/validate stage on the raw model text: clean, decode
(a decode error is caught as `MalformedResponse`), then normalize and
validate the payload. -/
def parseLlmText (raw : Chars) : LlmParse :=
  match jsonLoads (cleanResponseChars raw) with
  | none => .malformed
  | some j => parsePayload j

/-! # Theorems on the claims -/

/-! ## Save workflow: C2, C3, C4 -/

/-- C4: for every database state and every input, the save operation fails
with `AttributeError` and leaves the database unchanged — it accesses
`save_input.generated_recommendation_id` while `SavedOutfitCreate` only
defines `original_recommendation_id`, and this access happens while the
first `select` is being built, before any database read or write (the
result does not depend on `db`, and the returned state is `db` itself), so
no invocation can succeed or create a `SavedOutfit` row. -/
theorem save_service_attribute_error_before_db (db : DbState) (user_id : Uuid)
    (save_input : SavedOutfitCreate) (new_id : Uuid) :
    saveOutfitRecommendationService db user_id save_input new_id =
      (.error .attributeError, db) :=
  saveService_always_attributeError db user_id save_input new_id

/-- C2 (failing input): with one existing recommendation (id 10, owned by
user 1), user 1's first attempt to save it already raises `AttributeError`
and creates no `SavedOutfit` row — so the claimed behaviour
"first call succeeds, second call fails with `Conflict`" is unreachable,
even though the service's own lines 511-517 implement exactly that conflict
check: the field-name slip `generated_recommendation_id` (the pydantic model
defines `original_recommendation_id`) aborts every call first. -/
theorem save_twice_first_call_fails_attribute_error :
    saveOutfitRecommendationService ⟨[⟨10, 1⟩], []⟩ 1 ⟨10, some 5, none⟩ 99 =
      (.error .attributeError, ⟨[⟨10, 1⟩], []⟩) := by rfl

/-- C3 (counterexample): a recommendation owned by user 1, saved by user 2:
the call fails with `AttributeError`, not `Forbidden` — the service contains
no ownership comparison at all, so the claimed `Forbidden` error cannot be
produced. -/
theorem cross_user_save_not_forbidden_cx :
    saveOutfitRecommendationService ⟨[⟨10, 1⟩], []⟩ 2 ⟨10, none, none⟩ 99 =
      (.error .attributeError, ⟨[⟨10, 1⟩], []⟩) ∧
    SaveError.attributeError ≠ SaveError.forbidden :=
  ⟨by rfl, by decide⟩

/-- C3 (amended): when the referenced recommendation is owned by a user
other than the requester, the save operation fails with `AttributeError`
(the field-name slip aborts every call before any check; the service
performs no ownership check and never raises `Forbidden`) and creates no
`SavedOutfit` record. -/
theorem cross_user_save_fails_attribute_error (db : DbState) (uid : Uuid)
    (inp : SavedOutfitCreate) (nid : Uuid) (r : RecRow)
    (_hr : r ∈ db.recommendations) (_hid : r.id = inp.original_recommendation_id)
    (_hown : r.user_id ≠ uid) :
    saveOutfitRecommendationService db uid inp nid = (.error .attributeError, db) :=
  saveService_always_attributeError db uid inp nid

/-- Witness for C3 (amended) at a concrete cross-owner input. -/
theorem cross_user_save_fails_attribute_error_witness :
    saveOutfitRecommendationService ⟨[⟨7, 1⟩], []⟩ 2 ⟨7, none, some "great look"⟩ 42 =
      (.error .attributeError, ⟨[⟨7, 1⟩], []⟩) :=
  cross_user_save_fails_attribute_error ⟨[⟨7, 1⟩], []⟩ 2 ⟨7, none, some "great look"⟩ 42
    ⟨7, 1⟩ (by decide) rfl (by decide)

/-! ## Price sorting: C6 -/

/-- C6 (failing input): a product whose price string is `"N/A"` — exactly
what `parse_myntra_html`/`parse_ajio_html` emit when no price tag is found —
makes `filter_and_sort_products` raise `ValueError` under `price_asc`:
`float("N/A".replace('₹', '').replace(',', ''))` is not a number, no
currency symbol other than `₹` is stripped, and nothing places unparsable
prices last.  This contradicts both the claim and the function's own
comment ("Safely convert price string to float ..., handle non-numeric
parts"). -/
theorem price_sort_raises_on_unparsable_price :
    filterAndSortProducts
      [⟨"Myntra", "Solid Shirt", "N/A", "https://www.myntra.com/shirt1", none⟩]
      .price_asc none = .error .valueError := by rfl

/-! ## Parser lookups: helper lemmas -/

theorem filterKey_eq_nil (k : String) :
    ∀ fields : List (String × Json), hasFieldKey fields k = false →
      fields.filter (fun kv => kv.1 = k) = [] := by
  intro fields
  induction fields with
  | nil => intro _; rfl
  | cons kv rest ih =>
    intro h
    rw [hasFieldKey, List.any_cons, Bool.or_eq_false_iff] at h
    rw [List.filter_cons]
    simp only [h.1, if_false]
    exact ih (by rw [hasFieldKey]; exact h.2)

theorem filterKey_ne_nil (k : String) :
    ∀ fields : List (String × Json), hasFieldKey fields k = true →
      fields.filter (fun kv => kv.1 = k) ≠ [] := by
  intro fields
  induction fields with
  | nil => intro h; simp [hasFieldKey] at h
  | cons kv rest ih =>
    intro h
    rw [hasFieldKey, List.any_cons, Bool.or_eq_true] at h
    rw [List.filter_cons]
    rcases h with h1 | h2
    · simp [h1]
    · by_cases hc : kv.1 = k
      · simp [hc]
      · simpa [hc] using ih (by rw [hasFieldKey]; exact h2)

theorem lookupField_eq_none (fields : List (String × Json)) (k : String)
    (h : hasFieldKey fields k = false) : lookupField fields k = none := by
  rw [lookupField, filterKey_eq_nil k fields h]
  rfl

theorem lookupField_isSome (fields : List (String × Json)) (k : String)
    (h : hasFieldKey fields k = true) : ∃ v, lookupField fields k = some v := by
  rcases e : (fields.filter (fun kv => kv.1 = k)).getLast? with _ | kv
  · exact absurd (List.getLast?_eq_none_iff.mp e) (filterKey_ne_nil k fields h)
  · exact ⟨kv.2, by rw [lookupField, e]; rfl⟩

/-! ## Shape normalization: C8 -/

/-- C8 (counterexample): the decoded payload `42` has neither a top-level
`components` key nor an `outfit` object, yet the parse does not fail with
the `MalformedResponse` error: `'components' in 42` raises `TypeError`,
which only the generic `except Exception` handler catches (HTTP 502, the
`processing` outcome), not the `ValueError` handler that produces the
`MalformedResponse` 500. -/
theorem non_object_payload_not_malformed_cx :
    parsePayload (.num 42) = .processing ∧ LlmParse.processing ≠ LlmParse.malformed :=
  ⟨rfl, by decide⟩

/-- C8 (amended): unwrapping `{"outfit": {... components ...}}` yields
exactly the same parse as the unwrapped object; and every decoded JSON
*object* with neither a top-level `components` key nor an `outfit` object
containing `components` fails with `MalformedResponse`.  (A non-object
payload can instead take the `TypeError` route to the generic processing
error, as the counterexample shows.) -/
theorem outfit_unwrap_equivalence_and_malformed :
    (∀ g : List (String × Json), hasFieldKey g "components" = true →
      parsePayload (.obj [("outfit", .obj g)]) = parsePayload (.obj g)) ∧
    (∀ f : List (String × Json), hasFieldKey f "components" = false →
      (∀ g, lookupField f "outfit" = some (.obj g) → hasFieldKey g "components" = false) →
      parsePayload (.obj f) = .malformed) := by
  constructor
  · intro g hg
    have e1 : hasFieldKey [("outfit", Json.obj g)] "components" = false := rfl
    have e2 : hasFieldKey [("outfit", Json.obj g)] "outfit" = true := rfl
    have e3 : lookupField [("outfit", Json.obj g)] "outfit" = some (Json.obj g) := rfl
    rw [parsePayload, parsePayload]
    simp only [pyContains, pyIndex, e1, e2, e3, hg]
    simp
  · intro f hf ho
    rw [parsePayload]
    simp only [pyContains, pyIndex, hf]
    cases houtfit : hasFieldKey f "outfit" with
    | false => simp
    | true =>
      obtain ⟨v, hv⟩ := lookupField_isSome f "outfit" houtfit
      simp only [hv]
      cases v with
      | obj g => simp [ho g hv]
      | null => simp
      | bool b => simp
      | num q => simp
      | str s => simp
      | arr xs => simp

/-- Witness for C8 (amended): the unwrap equivalence at
`{"outfit": {"components": []}}` and the `MalformedResponse` outcome at
`{"reasoning": "none"}`. -/
theorem outfit_unwrap_equivalence_witness :
    parsePayload (.obj [("outfit", .obj [("components", Json.arr [])])]) =
      parsePayload (.obj [("components", Json.arr [])]) ∧
    parsePayload (.obj [("reasoning", Json.str "none")]) = .malformed :=
  ⟨outfit_unwrap_equivalence_and_malformed.1 [("components", Json.arr [])] rfl,
   outfit_unwrap_equivalence_and_malformed.2 [("reasoning", Json.str "none")] rfl
     (fun _ hg => nomatch hg)⟩

/-! ## Resolution-loop lemmas -/

theorem listIsPrefixOf_append_self (a b : Chars) : a.isPrefixOf (a ++ b) = true := by
  induction a with
  | nil => simp
  | cons x xs ih => simp [List.isPrefixOf_cons₂, ih]

/-- The fallback URL built from any query is a valid `HttpUrl`, so the
`except` branch of lines 407-413 (which would reset the fallback to `None`)
is never taken. -/
theorem isHttpUrl_google (q : String) : isHttpUrl (getGoogleShoppingUrl q) = true := by
  have hsplit : "https://www.google.com/search?tbm=shop&q=".data =
      "https://".data ++ "https://www.google.com/search?tbm=shop&q=".data.drop 8 := by decide
  have l1 : ("https://".data).length = 8 := by decide
  show isHttpUrlChars ("https://www.google.com/search?tbm=shop&q=".data ++ quotePlusChars q) = true
  rw [isHttpUrlChars, hsplit, List.append_assoc, listIsPrefixOf_append_self]
  simp [List.length_append, l1]

/-- Per-component case split of a successful `resolveQueried`: either the
scrape outcome was a non-empty list and `scraped_products` receives the
sorted validated products, or it was empty/an exception and
`fallback_search_url` receives the Google Shopping URL of the query. -/
theorem resolveQueried_ok_cases (ctx : ResolveCtx) (c : Component) (r : ScrapeOutcome)
    (c' : Component) (h : resolveQueried ctx c r = .ok c') :
    (∃ l, r = .ok l ∧ l ≠ [] ∧ ∃ sorted,
       filterAndSortProducts (validatedProducts l) ctx.sort_by ctx.min_rating = .ok sorted ∧
       c' = { c with scraped_products := sorted }) ∨
    ((∀ l, r = .ok l → l = []) ∧
       c' = { c with fallback_search_url := some (getGoogleShoppingUrl c.search_query) }) := by
  have hurl := isHttpUrl_google c.search_query
  cases r with
  | exn =>
    right
    rw [resolveQueried, hurl] at h
    simp at h
    refine ⟨?_, h.symm⟩
    intro l hl
    exact nomatch hl
  | ok l =>
    rw [resolveQueried] at h
    by_cases hl : l.isEmpty
    · right
      rw [if_pos hl, hurl] at h
      simp at h
      refine ⟨fun l' hl' => ?_, h.symm⟩
      cases hl'
      exact List.isEmpty_iff.mp hl
    · left
      rw [if_neg hl] at h
      cases hs : filterAndSortProducts (validatedProducts l) ctx.sort_by ctx.min_rating with
      | error e => rw [hs] at h; exact absurd h (by simp)
      | ok sorted =>
        rw [hs] at h
        simp at h
        exact ⟨l, rfl, by simpa using hl, sorted, hs, h.symm⟩

/-- Pointwise description of a successful resolution pass: the output has
one component per input component, each either skipped unchanged (falsy
query) or produced by `resolveQueried` from some scrape outcome. -/
theorem resolveAll_ok_pointwise (ctx : ResolveCtx) :
    ∀ (comps : List Component) (raws : List ScrapeOutcome) (out : List Component),
      resolveAll ctx comps raws = .ok out →
      out.length = comps.length ∧
      ∀ i (h1 : i < comps.length) (h2 : i < out.length),
        ((comps.get ⟨i, h1⟩).search_query = "" ∧ out.get ⟨i, h2⟩ = comps.get ⟨i, h1⟩) ∨
        ((comps.get ⟨i, h1⟩).search_query ≠ "" ∧
          ∃ r, resolveQueried ctx (comps.get ⟨i, h1⟩) r = .ok (out.get ⟨i, h2⟩)) := by
  intro comps
  induction comps with
  | nil =>
    intro raws out h
    simp only [resolveAll] at h
    simp at h
    subst h
    exact ⟨rfl, fun i h1 h2 => absurd h1 (by simp)⟩
  | cons c cs ih =>
    intro raws out h
    simp only [resolveAll] at h
    by_cases hq : c.search_query = ""
    · rw [if_pos hq] at h
      cases hrec : resolveAll ctx cs raws with
      | error e => rw [hrec] at h; exact absurd h (by simp [Bind.bind, Except.bind])
      | ok rest =>
        rw [hrec] at h
        have hout : out = c :: rest := by
          simpa [Bind.bind, Except.bind, pure, Except.pure] using h.symm
        subst hout
        obtain ⟨hlen, hpt⟩ := ih raws rest hrec
        refine ⟨by simp [hlen], ?_⟩
        intro i h1 h2
        cases i with
        | zero => exact Or.inl ⟨hq, rfl⟩
        | succ j =>
          exact hpt j (by simpa using h1) (by simpa using h2)
    · rw [if_neg hq] at h
      cases raws with
      | nil => exact absurd h (by simp)
      | cons r rs =>
        simp only [] at h
        cases hq1 : resolveQueried ctx c r with
        | error e => rw [hq1] at h; exact absurd h (by simp [Bind.bind, Except.bind])
        | ok c' =>
          rw [hq1] at h
          cases hrec : resolveAll ctx cs rs with
          | error e =>
            rw [hrec] at h
            exact absurd h (by simp [Bind.bind, Except.bind])
          | ok rest =>
            rw [hrec] at h
            have hout : out = c' :: rest := by
              simpa [Bind.bind, Except.bind, pure, Except.pure] using h.symm
            subst hout
            obtain ⟨hlen, hpt⟩ := ih rs rest hrec
            refine ⟨by simp [hlen], ?_⟩
            intro i h1 h2
            cases i with
            | zero => exact Or.inr ⟨hq, r, hq1⟩
            | succ j =>
              exact hpt j (by simpa using h1) (by simpa using h2)

/-! ## Dict-comprehension deduplication lemmas (C5) -/

theorem dictInsert_keys_mem (m : List (String × ScrapedProduct)) (k : String) (v : ScrapedProduct)
    (h : m.any (fun kv => kv.1 = k) = true) :
    (dictInsert m k v).map Prod.fst = m.map Prod.fst := by
  rw [dictInsert, if_pos h, List.map_map]
  apply List.map_congr_left
  intro kv _
  by_cases hk : kv.1 = k
  · simp [hk]
  · simp [hk]

theorem dictInsert_keys_new (m : List (String × ScrapedProduct)) (k : String) (v : ScrapedProduct)
    (h : ¬ m.any (fun kv => kv.1 = k) = true) :
    (dictInsert m k v).map Prod.fst = m.map Prod.fst ++ [k] := by
  rw [dictInsert, if_neg h]
  simp

theorem any_key_iff (m : List (String × ScrapedProduct)) (k : String) :
    m.any (fun kv => kv.1 = k) = true ↔ k ∈ m.map Prod.fst := by
  simp [List.any_eq_true, List.mem_map]

theorem dictInsert_snd_inv (m : List (String × ScrapedProduct)) (k : String) (v : ScrapedProduct)
    (hm : ∀ kv ∈ m, (kv.2).product_url = kv.1) (hv : v.product_url = k) :
    ∀ kv ∈ dictInsert m k v, (kv.2).product_url = kv.1 := by
  intro kv hkv
  rw [dictInsert] at hkv
  by_cases h : m.any (fun kv => kv.1 = k) = true
  · rw [if_pos h] at hkv
    obtain ⟨kv0, hkv0, heq⟩ := List.mem_map.mp hkv
    by_cases hk : kv0.1 = k
    · simp [hk] at heq; rw [← heq]; exact hv
    · simp [hk] at heq; rw [← heq]; exact hm kv0 hkv0
  · rw [if_neg h] at hkv
    rcases List.mem_append.mp hkv with h1 | h2
    · exact hm kv h1
    · simp at h2; rw [h2]; exact hv

/-- Invariant of the dict-comprehension fold of
`bulk_create_or_update_products`: the keys stay duplicate-free, every value
is stored under its own `product_url`, and the key set is the initial keys
plus the URLs of the processed products. -/
theorem dedup_fold_inv :
    ∀ (ps : List ScrapedProduct) (m : List (String × ScrapedProduct)),
      (m.map Prod.fst).Nodup → (∀ kv ∈ m, (kv.2).product_url = kv.1) →
      ((ps.foldl (fun acc p => dictInsert acc p.product_url p) m).map Prod.fst).Nodup ∧
      (∀ kv ∈ ps.foldl (fun acc p => dictInsert acc p.product_url p) m,
        (kv.2).product_url = kv.1) ∧
      (∀ u, u ∈ (ps.foldl (fun acc p => dictInsert acc p.product_url p) m).map Prod.fst ↔
        u ∈ m.map Prod.fst ∨ u ∈ ps.map ScrapedProduct.product_url) := by
  intro ps
  induction ps with
  | nil =>
    intro m h1 h2
    refine ⟨h1, h2, ?_⟩
    intro u
    simp
  | cons p rest ih =>
    intro m h1 h2
    rw [List.foldl_cons]
    by_cases hmem : m.any (fun kv => kv.1 = p.product_url) = true
    · have hkeys := dictInsert_keys_mem m p.product_url p hmem
      obtain ⟨i1, i2, i3⟩ := ih (dictInsert m p.product_url p)
        (by rw [hkeys]; exact h1) (dictInsert_snd_inv m p.product_url p h2 rfl)
      refine ⟨i1, i2, ?_⟩
      intro u
      rw [i3 u, hkeys]
      constructor
      · rintro (h | h)
        · exact Or.inl h
        · exact Or.inr (by simp [h])
      · rintro (h | h)
        · exact Or.inl h
        · rcases (by simpa using h :
              u = p.product_url ∨ u ∈ rest.map ScrapedProduct.product_url) with h' | h'
          · subst h'; exact Or.inl ((any_key_iff m p.product_url).mp hmem)
          · exact Or.inr h'
    · have hkeys := dictInsert_keys_new m p.product_url p hmem
      have hnotin : p.product_url ∉ m.map Prod.fst := fun hc => hmem ((any_key_iff m _).mpr hc)
      obtain ⟨i1, i2, i3⟩ := ih (dictInsert m p.product_url p)
        (by rw [hkeys]; exact List.Nodup.append h1 (by simp) (by simpa using hnotin))
        (dictInsert_snd_inv m p.product_url p h2 rfl)
      refine ⟨i1, i2, ?_⟩
      intro u
      rw [i3 u, hkeys]
      simp [List.mem_append]
      tauto

theorem dedupByUrl_keys (ps : List ScrapedProduct) :
    (dedupByUrl ps).map ScrapedProduct.product_url =
    (ps.foldl (fun acc p => dictInsert acc p.product_url p) []).map Prod.fst := by
  rw [dedupByUrl, List.map_map]
  apply List.map_congr_left
  intro kv hkv
  exact (dedup_fold_inv ps [] (by simp) (by simp)).2.1 kv hkv

/-! ## Deduplication by canonical product URL: C5 -/

/-- C5 (counterexample): a raw scrape result containing the same product
twice passes both copies through validation and sorting — the resolved list
attached to the component contains the same `product_url` twice, because no
deduplication happens between scraping and the component's
`scraped_products`. -/
theorem resolved_list_keeps_duplicate_urls_cx :
    resolveAll ⟨.relevance, none⟩ [⟨.Top, "white shirt", [], "men white shirt", none⟩]
      [.ok [{ retailer := some "Myntra", product_name := some "Slim Shirt", price := some "₹999",
              product_url := some "https://www.myntra.com/shirt1" },
            { retailer := some "Myntra", product_name := some "Slim Shirt", price := some "₹999",
              product_url := some "https://www.myntra.com/shirt1" }]] =
      .ok [⟨.Top, "white shirt",
        [⟨"Myntra", "Slim Shirt", "₹999", "https://www.myntra.com/shirt1", none⟩,
         ⟨"Myntra", "Slim Shirt", "₹999", "https://www.myntra.com/shirt1", none⟩],
        "men white shirt", none⟩] ∧
    (([⟨"Myntra", "Slim Shirt", "₹999", "https://www.myntra.com/shirt1", none⟩,
       ⟨"Myntra", "Slim Shirt", "₹999", "https://www.myntra.com/shirt1", none⟩] :
        List ScrapedProduct).map ScrapedProduct.product_url).count
      "https://www.myntra.com/shirt1" = 2 :=
  ⟨rfl, rfl⟩

/-- C5 (amended): deduplication by canonical `product_url` happens only in
the background persistence batch: the dict comprehension of
`bulk_create_or_update_products` yields each distinct URL exactly once
(and exactly the URLs of its input); the list attached to the component is
the validated raw list unchanged (under the default `relevance` sort) and
may contain the same `product_url` several times. -/
theorem dedup_only_in_persistence_batch :
    (∀ (ps : List ScrapedProduct) (u : String),
       u ∈ (dedupByUrl ps).map ScrapedProduct.product_url →
       ((dedupByUrl ps).map ScrapedProduct.product_url).count u = 1) ∧
    (∀ (ps : List ScrapedProduct) (u : String),
       u ∈ (dedupByUrl ps).map ScrapedProduct.product_url ↔
       u ∈ ps.map ScrapedProduct.product_url) ∧
    (∀ (ctx : ResolveCtx) (c : Component) (l : List RawProduct) (c' : Component),
       ctx.sort_by = .relevance → l ≠ [] →
       resolveQueried ctx c (.ok l) = .ok c' →
       c'.scraped_products = validatedProducts l) := by
  refine ⟨?_, ?_, ?_⟩
  · intro ps u hu
    have hnd : ((dedupByUrl ps).map ScrapedProduct.product_url).Nodup := by
      rw [dedupByUrl_keys]
      exact (dedup_fold_inv ps [] (by simp) (by simp)).1
    exact List.count_eq_one_of_mem hnd hu
  · intro ps u
    rw [dedupByUrl_keys]
    have hiff := (dedup_fold_inv ps [] (by simp) (by simp)).2.2 u
    rw [hiff]
    simp
  · intro ctx c l c' hsort hl h
    rw [resolveQueried, if_neg (by simpa using hl), hsort] at h
    simp [filterAndSortProducts, pure, Except.pure] at h
    rw [← h]

/-- Witness for C5 (amended): the duplicated-URL batch collapses to a
single entry, and the resolved list of a concrete component is the
validated raw list. -/
theorem dedup_only_in_persistence_batch_witness :
    ((dedupByUrl [⟨"Myntra", "A", "₹1", "https://www.myntra.com/p1", none⟩,
        ⟨"Ajio", "B", "₹2", "https://www.myntra.com/p1", none⟩]).map
        ScrapedProduct.product_url).count "https://www.myntra.com/p1" = 1 ∧
    ("https://www.myntra.com/p1" ∈
      (dedupByUrl [⟨"Myntra", "A", "₹1", "https://www.myntra.com/p1", none⟩,
        ⟨"Ajio", "B", "₹2", "https://www.myntra.com/p1", none⟩]).map
        ScrapedProduct.product_url ↔
     "https://www.myntra.com/p1" ∈
      ([⟨"Myntra", "A", "₹1", "https://www.myntra.com/p1", none⟩,
        ⟨"Ajio", "B", "₹2", "https://www.myntra.com/p1", none⟩] :
        List ScrapedProduct).map ScrapedProduct.product_url) ∧
    (⟨.Top, "t", [⟨"Myntra", "A", "₹1", "https://www.myntra.com/p1", none⟩],
        "men tee", none⟩ : Component).scraped_products =
      validatedProducts [{ retailer := some "Myntra", product_name := some "A",
                           price := some "₹1",
                           product_url := some "https://www.myntra.com/p1" }] :=
  ⟨dedup_only_in_persistence_batch.1 _ "https://www.myntra.com/p1" (by decide),
   dedup_only_in_persistence_batch.2.1 _ "https://www.myntra.com/p1",
   dedup_only_in_persistence_batch.2.2 ⟨.relevance, none⟩
     ⟨.Top, "t", [], "men tee", none⟩
     [{ retailer := some "Myntra", product_name := some "A",
          price := some "₹1", product_url := some "https://www.myntra.com/p1" }]
     ⟨.Top, "t", [⟨"Myntra", "A", "₹1", "https://www.myntra.com/p1", none⟩],
        "men tee", none⟩ rfl (by decide) rfl⟩

/-! ## Fallback-URL invariant: C1 -/

/-- C1 (counterexample): a queried component whose scrape returned one raw
product that fails `ScrapedProduct` validation (its `product_url` is not a
well-formed absolute URL) takes the success branch — `raw_products` is a
non-empty list — so no fallback is generated, yet every product is dropped
by validation: the component ends with `scraped_products = []` and
`fallback_search_url = None`, violating the claimed "empty implies fallback
set" direction of the invariant. -/
theorem zero_products_without_fallback_cx :
    resolveAll ⟨.relevance, none⟩ [⟨.Top, "white shirt", [], "men white shirt", none⟩]
      [.ok [{ retailer := some "Myntra", product_name := some "Slim Shirt",
              price := some "₹999", product_url := some "not-a-url" }]] =
      .ok [⟨.Top, "white shirt", [], "men white shirt", none⟩] ∧
    (⟨.Top, "white shirt", [], "men white shirt", none⟩ : Component).scraped_products = [] ∧
    (⟨.Top, "white shirt", [], "men white shirt", none⟩ : Component).fallback_search_url = none :=
  ⟨rfl, rfl, rfl⟩

/-- C1 (amended): for components entering resolution with no fallback and no
products (the shape the parser normally produces), (i) whenever a component
leaves resolution with `fallback_search_url` set, it has zero scraped
products and the URL is exactly `get_google_shopping_url(search_query)` —
a deterministic, byte-for-byte function of the query; and (ii) for a
queried component, the fallback is set iff the scrape outcome was *not* a
non-empty raw list.  The converse of the claimed invariant fails: a
component can end with zero products and no fallback (skipped component, or
all raw products failing validation, as the counterexample shows). -/
theorem fallback_url_characterization :
    (∀ (ctx : ResolveCtx) (comps : List Component) (raws : List ScrapeOutcome)
       (out : List Component) (i : ℕ) (h1 : i < comps.length) (h2 : i < out.length),
       resolveAll ctx comps raws = .ok out →
       (comps.get ⟨i, h1⟩).fallback_search_url = none →
       (comps.get ⟨i, h1⟩).scraped_products = [] →
       (out.get ⟨i, h2⟩).fallback_search_url ≠ none →
       (out.get ⟨i, h2⟩).scraped_products = [] ∧
       (out.get ⟨i, h2⟩).fallback_search_url =
         some (getGoogleShoppingUrl ((comps.get ⟨i, h1⟩).search_query))) ∧
    (∀ (ctx : ResolveCtx) (c : Component) (r : ScrapeOutcome) (c' : Component),
       c.fallback_search_url = none → c.search_query ≠ "" →
       resolveQueried ctx c r = .ok c' →
       ((c'.fallback_search_url ≠ none) ↔ ∀ l, r = .ok l → l = [])) := by
  constructor
  · intro ctx comps raws out i h1 h2 hres hfb hsp hfb'
    obtain ⟨hlen, hpt⟩ := resolveAll_ok_pointwise ctx comps raws out hres
    rcases hpt i h1 h2 with ⟨hq, heq⟩ | ⟨hq, r, hr⟩
    · rw [heq] at hfb'
      exact absurd hfb hfb'
    · rcases resolveQueried_ok_cases ctx _ r _ hr with
        ⟨l, hrl, hlne, sorted, hsort, hc'⟩ | ⟨hemp, hc'⟩
      · rw [hc'] at hfb'
        simp at hfb'
        exact absurd hfb hfb'
      · rw [hc']
        simpa using hsp
  · intro ctx c r c' hfb hq hr
    rcases resolveQueried_ok_cases ctx c r c' hr with
      ⟨l, hrl, hlne, sorted, hsort, hc'⟩ | ⟨hemp, hc'⟩
    · subst hrl
      rw [hc']
      apply iff_of_false
      · simp [hfb]
      · intro hall
        exact hlne (hall l rfl)
    · rw [hc']
      apply iff_of_true
      · simp
      · exact hemp

/-- Witness for C1 (amended): a queried component whose scrape task raised
gets the deterministic Google Shopping fallback and no products. -/
theorem fallback_url_characterization_witness :
    ((⟨.Dress, "d", [], "red dress", some (getGoogleShoppingUrl "red dress")⟩ :
        Component).scraped_products = [] ∧
     (⟨.Dress, "d", [], "red dress", some (getGoogleShoppingUrl "red dress")⟩ :
        Component).fallback_search_url = some (getGoogleShoppingUrl "red dress")) ∧
    (((⟨.Dress, "d", [], "red dress", some (getGoogleShoppingUrl "red dress")⟩ :
        Component).fallback_search_url ≠ none) ↔
      ∀ l, ScrapeOutcome.exn = ScrapeOutcome.ok l → l = []) :=
  ⟨fallback_url_characterization.1 ⟨.relevance, none⟩
      [⟨.Dress, "d", [], "red dress", none⟩] [.exn]
      [⟨.Dress, "d", [], "red dress", some (getGoogleShoppingUrl "red dress")⟩]
      0 (by decide) (by decide) rfl rfl rfl (by simp),
   fallback_url_characterization.2 ⟨.relevance, none⟩
      ⟨.Dress, "d", [], "red dress", none⟩ .exn
      ⟨.Dress, "d", [], "red dress", some (getGoogleShoppingUrl "red dress")⟩
      rfl (by decide) rfl⟩

/-! ## Component retention without `search_query`: C7 -/

/-- C7 (counterexample): a decoded payload whose single component lacks
`search_query` is not retained — `search_query` is a required field of
`OutfitComponentSuggestion`, so pydantic validation fails and the whole
parse is rejected as `MalformedResponse`, instead of keeping the component
in description-only form as the claim states. -/
theorem component_missing_search_query_rejected_cx :
    parsePayload (.obj [("components", .arr
      [.obj [("item_category", .str "Top"), ("description", .str "linen shirt")]])]) =
      .malformed := rfl

/-- C7 (amended): a component object with no `search_query` key always fails
validation (so the whole parse fails, as the counterexample shows); only a
component whose `search_query` is present but empty is retained in
description-only form, and the product-resolution loop then skips it — it
consumes no scrape result and is returned unchanged, with no scraped
products. -/
theorem component_search_query_required_and_skip :
    (∀ f : List (String × Json), hasFieldKey f "search_query" = false →
      validateComponentJson (.obj f) = none) ∧
    (∀ desc : String,
      validateComponentJson (.obj [("item_category", .str "Top"), ("description", .str desc),
        ("search_query", .str "")]) = some ⟨.Top, desc, [], "", none⟩) ∧
    (∀ (ctx : ResolveCtx) (c : Component), c.search_query = "" →
      resolveAll ctx [c] [] = .ok [c]) := by
  refine ⟨?_, fun desc => rfl, ?_⟩
  · intro f h
    have hs := lookupField_eq_none f "search_query" h
    rw [validateComponentJson]
    rcases lookupField f "item_category" with _ | v1
    · rfl
    · cases v1 <;> simp
      case str cat =>
        rcases ItemCategory.ofValue cat with _ | c <;> simp
        rcases lookupField f "description" with _ | v2
        · simp
        · cases v2 <;> simp
          case str d => simp [hs]
  · intro ctx c h
    simp [resolveAll, h]

/-- Witness for C7 (amended): a concrete component without `search_query`
fails validation, one with an empty `search_query` is retained, and the
resolution loop returns it untouched. -/
theorem component_search_query_required_and_skip_witness :
    validateComponentJson (.obj [("description", Json.str "tan loafers")]) = none ∧
    validateComponentJson (.obj [("item_category", .str "Top"), ("description", .str "tan loafers"),
      ("search_query", .str "")]) = some ⟨.Top, "tan loafers", [], "", none⟩ ∧
    resolveAll ⟨.relevance, none⟩ [⟨.Shoes, "loafers", [], "", none⟩] [] =
      .ok [⟨.Shoes, "loafers", [], "", none⟩] :=
  ⟨component_search_query_required_and_skip.1 [("description", Json.str "tan loafers")] rfl,
   component_search_query_required_and_skip.2.1 "tan loafers",
   component_search_query_required_and_skip.2.2 ⟨.relevance, none⟩
     ⟨.Shoes, "loafers", [], "", none⟩ rfl⟩

/-! ## Fence-cleaning lemmas (C9) -/

theorem removeAllOccAux_fuel (p : Char) (ps : Chars) :
    ∀ (f1 : ℕ), ∀ (cs : Chars) (f2 : ℕ), cs.length ≤ f1 → cs.length ≤ f2 →
      removeAllOccAux p ps f1 cs = removeAllOccAux p ps f2 cs := by
  intro f1
  induction f1 with
  | zero =>
    intro cs f2 h1 h2
    have hnil : cs = [] := List.length_eq_zero.mp (Nat.le_antisymm h1 (Nat.zero_le _))
    subst hnil
    cases f2 <;> rfl
  | succ f ih =>
    intro cs f2 h1 h2
    cases cs with
    | nil => cases f2 <;> rfl
    | cons c rest =>
      cases f2 with
      | zero => exact absurd h2 (by simp)
      | succ f2' =>
        rw [removeAllOccAux, removeAllOccAux]
        by_cases hpre : prefixOfL (p :: ps) (c :: rest) = true
        · rw [if_pos hpre, if_pos hpre]
          exact ih _ _ (by simp at h1 ⊢; omega) (by simp at h2 ⊢; omega)
        · rw [if_neg hpre, if_neg hpre]
          rw [ih rest f2' (by simpa using h1) (by simpa using h2)]

theorem removeAllOcc_cons_no (p : Char) (ps : Chars) (c : Char) (rest : Chars)
    (h : ¬ prefixOfL (p :: ps) (c :: rest) = true) :
    removeAllOcc p ps (c :: rest) = c :: removeAllOcc p ps rest := by
  rw [removeAllOcc, removeAllOcc, List.length_cons, removeAllOccAux, if_neg h]

theorem prefixOfL_self_append (a b : Chars) : prefixOfL a (a ++ b) = true := by
  induction a with
  | nil => rfl
  | cons x xs ih => simp [prefixOfL, ih]

/-- Removing a non-empty pattern that sits at the head of the input removes
it and continues with the remainder. -/
theorem removeAllOcc_pattern_head (p : Char) (ps : Chars) (b : Chars) :
    removeAllOcc p ps ((p :: ps) ++ b) = removeAllOcc p ps b := by
  have hpre : prefixOfL (p :: ps) (p :: (ps ++ b)) = true := by
    rw [← List.cons_append]
    exact prefixOfL_self_append (p :: ps) b
  rw [List.cons_append, removeAllOcc, List.length_cons, removeAllOccAux,
      if_pos hpre, List.drop_left, removeAllOcc]
  exact removeAllOccAux_fuel p ps _ b _ (by simp [List.length_append]) (le_refl _)

theorem prefixOfL_head_ne (p : Char) (ps : Chars) (c : Char) (rest : Chars) (h : c ≠ p) :
    prefixOfL (p :: ps) (c :: rest) = false := by
  simp [prefixOfL]
  intro hpc
  exact absurd hpc.symm h

theorem prefixOfL_tick_free (y : Char) (ys prose : Chars)
    (hfree : ∀ c ∈ prose, c ≠ y) :
    prefixOfL (y :: ys) prose = false := by
  cases prose with
  | nil => rfl
  | cons c rest => exact prefixOfL_head_ne y ys c rest (hfree c (by simp))

theorem removeAllOcc_free (p : Char) (ps : Chars) :
    ∀ (cs : Chars), (∀ c ∈ cs, c ≠ p) → removeAllOcc p ps cs = cs := by
  intro cs
  induction cs with
  | nil => intro _; rfl
  | cons c rest ih =>
    intro h
    rw [removeAllOcc_cons_no p ps c rest
      (by rw [prefixOfL_head_ne p ps c rest (h c (by simp))]; simp)]
    rw [ih (fun x hx => h x (by simp [hx]))]

theorem removeAllOcc_append_free (p : Char) (ps : Chars) :
    ∀ (a b : Chars), (∀ c ∈ a, c ≠ p) →
      removeAllOcc p ps (a ++ b) = a ++ removeAllOcc p ps b := by
  intro a
  induction a with
  | nil => intro b _; rfl
  | cons c rest ih =>
    intro b h
    rw [List.cons_append, removeAllOcc_cons_no p ps c (rest ++ b)
      (by rw [prefixOfL_head_ne p ps c _ (h c (by simp))]; simp)]
    rw [ih b (fun x hx => h x (by simp [hx]))]
    rfl

/-- The `"```json"` pass leaves the closing `"```"` fence and backtick-free
trailing prose alone, provided the prose does not begin with `json`. -/
theorem removeJson_fence_prose (prose : Chars)
    (hfree : ∀ c ∈ prose, c ≠ '`') (hj : prefixOfL ['j', 's', 'o', 'n'] prose = false) :
    removeAllOcc '`' fenceJsonTail (('`' :: fenceTail) ++ prose) =
      ('`' :: fenceTail) ++ prose := by
  have e : ('`' :: fenceTail) ++ prose = '`' :: '`' :: '`' :: prose := rfl
  have t1 := prefixOfL_tick_free '`' ['j', 's', 'o', 'n'] prose hfree
  have t2 := prefixOfL_tick_free '`' ['`', 'j', 's', 'o', 'n'] prose hfree
  rw [e]
  rw [removeAllOcc_cons_no _ _ _ _ (by simp [prefixOfL, fenceJsonTail, hj])]
  rw [removeAllOcc_cons_no _ _ _ _ (by simp [prefixOfL, fenceJsonTail, t1])]
  rw [removeAllOcc_cons_no _ _ _ _ (by simp [prefixOfL, fenceJsonTail, t2])]
  rw [removeAllOcc_free _ _ prose hfree]

/-- The `"```"` pass removes the closing fence and keeps backtick-free
prose. -/
theorem removeFence_fence_prose (prose : Chars) (hfree : ∀ c ∈ prose, c ≠ '`') :
    removeAllOcc '`' fenceTail (('`' :: fenceTail) ++ prose) = prose := by
  rw [removeAllOcc_pattern_head '`' fenceTail prose]
  exact removeAllOcc_free _ _ prose hfree

/-- The initial `.strip()` leaves a fence-wrapped response text unchanged
when its trailing prose carries no trailing whitespace. -/
theorem pyStrip_wrapped (body prose : Chars)
    (ht : List.dropWhile isPyWs prose.reverse = prose.reverse) :
    pyStripChars (('`' :: fenceJsonTail) ++ body ++ ('`' :: fenceTail) ++ prose) =
      ('`' :: fenceJsonTail) ++ body ++ ('`' :: fenceTail) ++ prose := by
  have hlead : List.dropWhile isPyWs
      (('`' :: fenceJsonTail) ++ body ++ ('`' :: fenceTail) ++ prose) =
      ('`' :: fenceJsonTail) ++ body ++ ('`' :: fenceTail) ++ prose := by
    show List.dropWhile isPyWs
      ('`' :: (fenceJsonTail ++ body ++ ('`' :: fenceTail) ++ prose)) =
      ('`' :: (fenceJsonTail ++ body ++ ('`' :: fenceTail) ++ prose))
    exact List.dropWhile_cons_of_neg (by decide)
  have htrail : List.dropWhile isPyWs
      ((('`' :: fenceJsonTail) ++ body ++ ('`' :: fenceTail) ++ prose).reverse) =
      (('`' :: fenceJsonTail) ++ body ++ ('`' :: fenceTail) ++ prose).reverse := by
    rw [List.reverse_append, List.reverse_append, List.reverse_append,
        List.dropWhile_append]
    by_cases hpw : (List.dropWhile isPyWs prose.reverse).isEmpty
    · have hrev : prose.reverse = [] := by rwa [ht, List.isEmpty_iff] at hpw
      have hpnil : prose = [] := by simpa using hrev
      subst hpnil
      rw [if_pos (by simp)]
      show List.dropWhile isPyWs
          ('`' :: ('`' :: ('`' :: (body.reverse ++ ('`' :: fenceJsonTail).reverse)))) =
        [].reverse ++ (('`' :: fenceTail).reverse ++
          (body.reverse ++ ('`' :: fenceJsonTail).reverse))
      rw [List.dropWhile_cons_of_neg (by decide)]
      rfl
    · rw [if_neg hpw, ht]
  rw [pyStripChars, hlead, htrail, List.reverse_reverse]

/-- The whole cleaning expression of line 336 on a fence-wrapped response:
the fence markers are removed wherever they occur and everything else —
including the trailing prose — is kept and handed on. -/
theorem clean_wrapped (body prose : Chars)
    (hb : ∀ c ∈ body, c ≠ '`') (hp : ∀ c ∈ prose, c ≠ '`')
    (hj : prefixOfL ['j', 's', 'o', 'n'] prose = false)
    (ht : List.dropWhile isPyWs prose.reverse = prose.reverse) :
    cleanResponseChars (('`' :: fenceJsonTail) ++ body ++ ('`' :: fenceTail) ++ prose) =
      pyStripChars (body ++ prose) := by
  rw [cleanResponseChars, pyStrip_wrapped body prose ht]
  rw [show ('`' :: fenceJsonTail) ++ body ++ ('`' :: fenceTail) ++ prose =
      ('`' :: fenceJsonTail) ++ (body ++ (('`' :: fenceTail) ++ prose)) by
    simp [List.append_assoc]]
  rw [removeAllOcc_pattern_head '`' fenceJsonTail _]
  rw [removeAllOcc_append_free '`' fenceJsonTail body _ hb]
  rw [removeJson_fence_prose prose hp hj]
  rw [removeAllOcc_append_free '`' fenceTail body _ hb]
  rw [removeFence_fence_prose prose hp]

/-! ## Fence stripping and trailing prose: C9 -/

/-- C9 (counterexample): fenced JSON followed by trailing prose fails to
parse — the cleaning step only deletes the backtick markers and keeps the
prose, so `json.loads` sees `{"components": []} Hope this helps!` and
raises (`Extra data`), producing `MalformedResponse`; the identical text
without the prose parses fine.  The claimed discarding of prose outside the
fences does not happen. -/
theorem trailing_prose_not_discarded_cx :
    parseLlmText "```json\x7b\"components\": []\x7d``` Hope this helps!".data =
      LlmParse.malformed ∧
    parseLlmText "```json\x7b\"components\": []\x7d```".data = LlmParse.ok ⟨[], none⟩ :=
  ⟨rfl, rfl⟩

/-- C9 (amended): for raw text of the form `"```json" + body + "```" +
prose` with backtick-free body and prose, prose not starting with `json`
and carrying no trailing whitespace, the parser removes the fence markers
(wherever they occur) and decodes `strip(body + prose)` — the prose is fed
to the JSON decoder rather than discarded, so non-whitespace prose after
the closing fence generally breaks the decode (counterexample), while an
empty prose leaves exactly the enclosed JSON. -/
theorem fence_markers_removed_prose_kept :
    ∀ (body prose : Chars), (∀ c ∈ body, c ≠ '`') → (∀ c ∈ prose, c ≠ '`') →
      prefixOfL ['j', 's', 'o', 'n'] prose = false →
      List.dropWhile isPyWs prose.reverse = prose.reverse →
      parseLlmText (('`' :: fenceJsonTail) ++ body ++ ('`' :: fenceTail) ++ prose) =
        (match jsonLoads (pyStripChars (body ++ prose)) with
         | none => LlmParse.malformed
         | some j => parsePayload j) := by
  intro body prose hb hp hj ht
  rw [parseLlmText, clean_wrapped body prose hb hp hj ht]

/-- Witness for C9 (amended) at the canonical fenced payload with trailing
prose. -/
theorem fence_markers_removed_prose_kept_witness :
    parseLlmText (('`' :: fenceJsonTail) ++ "\x7b\"components\": []\x7d".data ++
        ('`' :: fenceTail) ++ " Hope this helps!".data) =
      (match jsonLoads (pyStripChars ("\x7b\"components\": []\x7d".data ++
          " Hope this helps!".data)) with
       | none => LlmParse.malformed
       | some j => parsePayload j) :=
  fence_markers_removed_prose_kept "\x7b\"components\": []\x7d".data " Hope this helps!".data
    (by decide) (by decide) (by decide) (by decide)

/-! ## Retry policy of the scraping orchestrator: C10 -/

/-- C10: the retry policy of `find_products_for_query`.  For a non-empty
query and retailer list: (i) when the first aggregate is empty and the
query has more than two words, the result is that of exactly one further
round with the broadened query (`" ".join(query.split()[-2:])`) against the
same retailers — empty retry gives `[]`, otherwise the enriched retry
aggregate; (ii) when the first aggregate is empty and the query has at most
two words, the result is `[]` with no retry; (iii) when the first attempt
returned products, the result is their enrichment; (iv) no retry occurs
outside case (i): whenever the first aggregate is non-empty or the query
has at most two words, the result only depends on the fetch behaviour at
the original query. -/
theorem find_products_retry_policy :
    (∀ (fetch : String → String → ScrapeOutcome) (enrich : List RawProduct → List RawProduct)
       (q : String) (rs : List String) (lim : ℕ),
       q ≠ "" → rs ≠ [] → aggregateScrape fetch q rs lim = [] →
       2 < (pySplitWs q).length →
       findProductsForQuery fetch enrich q rs lim =
         (if aggregateScrape fetch (broadenedQuery q) rs lim = [] then []
          else enrich (aggregateScrape fetch (broadenedQuery q) rs lim))) ∧
    (∀ (fetch : String → String → ScrapeOutcome) (enrich : List RawProduct → List RawProduct)
       (q : String) (rs : List String) (lim : ℕ),
       q ≠ "" → rs ≠ [] → aggregateScrape fetch q rs lim = [] →
       (pySplitWs q).length ≤ 2 →
       findProductsForQuery fetch enrich q rs lim = []) ∧
    (∀ (fetch : String → String → ScrapeOutcome) (enrich : List RawProduct → List RawProduct)
       (q : String) (rs : List String) (lim : ℕ),
       q ≠ "" → rs ≠ [] → aggregateScrape fetch q rs lim ≠ [] →
       findProductsForQuery fetch enrich q rs lim = enrich (aggregateScrape fetch q rs lim)) ∧
    (∀ (fetch fetch' : String → String → ScrapeOutcome)
       (enrich : List RawProduct → List RawProduct)
       (q : String) (rs : List String) (lim : ℕ),
       (∀ r, fetch q r = fetch' q r) →
       (aggregateScrape fetch q rs lim ≠ [] ∨ (pySplitWs q).length ≤ 2) →
       findProductsForQuery fetch enrich q rs lim =
         findProductsForQuery fetch' enrich q rs lim) := by
  refine ⟨?_, ?_, ?_, ?_⟩
  · intro fetch enrich q rs lim hq hr hagg hlen
    simp [findProductsForQuery, hq, hr, hagg, hlen]
  · intro fetch enrich q rs lim hq hr hagg hlen
    simp [findProductsForQuery, hq, hr, hagg, Nat.not_lt.mpr hlen]
  · intro fetch enrich q rs lim hq hr hagg
    simp [findProductsForQuery, hq, hr, hagg]
  · intro fetch fetch' enrich q rs lim hagree hside
    have hEq : aggregateScrape fetch q rs lim = aggregateScrape fetch' q rs lim := by
      rw [aggregateScrape, aggregateScrape]
      congr 1
      apply List.map_congr_left
      intro r _
      rw [hagree r]
    by_cases hq0 : q = ""
    · simp [findProductsForQuery, hq0]
    by_cases hr0 : rs = []
    · simp [findProductsForQuery, hr0]
    rcases hside with hne | hle
    · have hne' : aggregateScrape fetch' q rs lim ≠ [] := by rw [← hEq]; exact hne
      simp [findProductsForQuery, hq0, hr0, hne, hne', hEq]
    · simp [findProductsForQuery, hq0, hr0, Nat.not_lt.mpr hle, hEq]

/-- Witness for C10 at concrete fetch oracles: an all-empty scrape of a
four-word query retries with the broadened query; a two-word query does
not; a successful first attempt returns its enrichment; and two oracles
agreeing on the original query give the same result when no retry is due. -/
theorem find_products_retry_policy_witness :
    (findProductsForQuery (fun _ _ => ScrapeOutcome.ok []) id
        "men white linen shirt" ["Myntra"] 5 =
      (if aggregateScrape (fun _ _ => ScrapeOutcome.ok [])
            (broadenedQuery "men white linen shirt") ["Myntra"] 5 = [] then []
       else id (aggregateScrape (fun _ _ => ScrapeOutcome.ok [])
            (broadenedQuery "men white linen shirt") ["Myntra"] 5))) ∧
    (findProductsForQuery (fun _ _ => ScrapeOutcome.ok []) id "red dress" ["Myntra"] 5 = []) ∧
    (findProductsForQuery
        (fun _ _ => ScrapeOutcome.ok [{ product_url := some "https://www.myntra.com/p1" }]) id
        "red dress" ["Myntra"] 5 =
      id (aggregateScrape
        (fun _ _ => ScrapeOutcome.ok [{ product_url := some "https://www.myntra.com/p1" }])
        "red dress" ["Myntra"] 5)) ∧
    (findProductsForQuery
        (fun _ _ => ScrapeOutcome.ok [{ product_url := some "https://www.myntra.com/p1" }]) id
        "red dress" ["Myntra"] 5 =
      findProductsForQuery
        (fun qq _ => if qq = "red dress" then
            ScrapeOutcome.ok [{ product_url := some "https://www.myntra.com/p1" }]
          else ScrapeOutcome.exn) id
        "red dress" ["Myntra"] 5) :=
  ⟨find_products_retry_policy.1 (fun _ _ => ScrapeOutcome.ok []) id
      "men white linen shirt" ["Myntra"] 5 (by decide) (by decide) rfl (by decide),
   find_products_retry_policy.2.1 (fun _ _ => ScrapeOutcome.ok []) id
      "red dress" ["Myntra"] 5 (by decide) (by decide) rfl (by decide),
   find_products_retry_policy.2.2.1
      (fun _ _ => ScrapeOutcome.ok [{ product_url := some "https://www.myntra.com/p1" }]) id
      "red dress" ["Myntra"] 5 (by decide) (by decide) (by decide),
   find_products_retry_policy.2.2.2
      (fun _ _ => ScrapeOutcome.ok [{ product_url := some "https://www.myntra.com/p1" }])
      (fun qq _ => if qq = "red dress" then
          ScrapeOutcome.ok [{ product_url := some "https://www.myntra.com/p1" }]
        else ScrapeOutcome.exn) id
      "red dress" ["Myntra"] 5 (fun _ => by simp)
      (Or.inl (by decide))⟩

end FashionScanner
